import Mathlib

/-!
Shallow embedding of the derivation, filtering and
workflow logic (src/src/pages/Recipes.tsx, Inventory.tsx, Menu.tsx,
ShoppingList.tsx and the Calendar page), together with theorems settling
the claims of the specification about it.

JS-specific conventions used throughout the embedding:
* a JS string is truthy iff it is non-empty (`jsTruthyStr`);
* a JS array value is always truthy, even when empty (`jsTruthyArray`);
* `a.includes(b)` on strings is modelled by infix search on the character
  lists (`jsIncludes`);
* `toLowerCase` is modelled by mapping `Char.toLower` (ASCII-faithful).
-/

namespace MealPlanner

/-- JS truthiness of a string: `""` is falsy, every other string truthy. -/
def jsTruthyStr (s : String) : Bool := s ≠ ""

/-- JS truthiness of an array value: an array object, empty included, is
always truthy, so `!arr` is always `false` for a present array. -/
def jsTruthyArray {α : Type} (_ : List α) : Bool := true

/-- Holds when `needle` occurs contiguously in `hay` (as lists): some suffix of `hay`
starts with `needle`. -/
def listIncludes {α : Type} [DecidableEq α] (hay needle : List α) : Bool :=
  hay.tails.any fun suffix => needle.isPrefixOf suffix

/-- Model of JS `hay.includes(needle)`: `needle` occurs contiguously in
`hay`. -/
def jsIncludes (hay needle : String) : Bool :=
  listIncludes hay.toList needle.toList

/-- Model of JS `s.toLowerCase()` (ASCII-faithful), character by
character. -/
def jsToLower (s : String) : String :=
  String.mk (s.toList.map Char.toLower)

/-- Recipe ingredient as declared in `Recipes.tsx` (`interface Ingredient`). -/
structure Ingredient where
  name : String := ""
  quantity : Int := 0
  unit : String := ""
deriving Repr, DecidableEq

/-- Recipe as declared in `Recipes.tsx` (`interface Recipe`). -/
structure Recipe where
  id : String := ""
  name : String := ""
  description : String := ""
  cuisine : String := ""
  category : String := ""
  image : String := ""
  prepTime : String := ""
  cookTime : String := ""
  servings : Int := 0
  ingredients : List Ingredient := []
  instructions : List String := []
deriving Repr, DecidableEq

/-- Inventory item as declared in `Recipes.tsx` (`interface InventoryItem`). -/
structure InventoryItem where
  id : String := ""
  name : String := ""
  quantity : Int := 0
  unit : String := ""
deriving Repr, DecidableEq

/-- Embeds `Recipes.tsx` `checkIngredientInStock`:
`if (!ingredient) return false;` then
`inventory.some(item => item?.name?.toLowerCase().includes(ingredientLower))`.
The `item?.name?` optional chain collapses because `name` is a total field
of the declared interface. -/
def checkIngredientInStock (ingredient : String) (inventory : List InventoryItem) : Bool :=
  if !(jsTruthyStr ingredient) then false
  else
    let ingredientLower := jsToLower ingredient
    inventory.any fun item => jsIncludes (jsToLower item.name) ingredientLower

/-- Embeds `Recipes.tsx` `hasAllIngredientsInStock`:
`if (!recipe.ingredients) return false;` — the guard is written out with
`jsTruthyArray` because in JS a present array, even `[]`, is truthy — then
`recipe.ingredients.every(ingredient => ingredient?.name &&
checkIngredientInStock(ingredient.name))`. -/
def hasAllIngredientsInStock (recipe : Recipe) (inventory : List InventoryItem) : Bool :=
  if !(jsTruthyArray recipe.ingredients) then false
  else recipe.ingredients.all fun ingredient =>
    jsTruthyStr ingredient.name && checkIngredientInStock ingredient.name inventory

/-- A concrete recipe whose ingredient list is empty. -/
def emptyIngredientsRecipe : Recipe :=
  { id := "r0", name := "Toast", description := "plain", cuisine := "Any",
    category := "Breakfast", image := "", prepTime := "5 mins",
    cookTime := "0 mins", servings := 1, ingredients := [], instructions := [] }

/-! ### Inventory expiration status (`Inventory.tsx`) -/

/-- Milliseconds in a day: `1000 * 60 * 60 * 24`. -/
def msPerDay : Int := 1000 * 60 * 60 * 24

/-- Embeds `Inventory.tsx` `isExpiringSoon`: with timestamps in milliseconds,
`Math.floor((expirationDate.getTime() - today.getTime()) / (1000*60*60*24))`
is floor division `Int.fdiv`; result is
`daysUntilExpiration <= 7 && daysUntilExpiration >= 0`.
An absent date (`if (!date) return false`) is `none`. -/
def isExpiringSoon (date : Option Int) (today : Int) : Bool :=
  match date with
  | none => false
  | some expirationDate =>
    let daysUntilExpiration := (expirationDate - today).fdiv msPerDay
    daysUntilExpiration ≤ 7 && daysUntilExpiration ≥ 0

/-- Embeds `Inventory.tsx` `isExpired`: `new Date(date) < new Date()`, i.e. a
strict comparison of timestamps; absent date → `false`. -/
def isExpired (date : Option Int) (today : Int) : Bool :=
  match date with
  | none => false
  | some expirationDate => expirationDate < today

/-! ### Menu timing aggregation (`Menu.tsx`, `MenuDetailsModal`) -/

/-- Decimal digit characters taken from the front of the list. -/
def decDigits (cs : List Char) : List Char := cs.takeWhile Char.isDigit

/-- Value of a list of decimal digits. -/
def decToNat (ds : List Char) : Nat :=
  ds.foldl (fun n c => 10 * n + (c.toNat - 48)) 0

/-- Hexadecimal digit test (for the `0x` prefix case of JS `parseInt`). -/
def isHexDigit (c : Char) : Bool :=
  c.isDigit || (('a' ≤ c.toLower) && (c.toLower ≤ 'f'))

/-- Value of one hexadecimal digit. -/
def hexDigitVal (c : Char) : Nat :=
  if c.isDigit then c.toNat - 48 else c.toLower.toNat - 87

/-- Value of a list of hexadecimal digits. -/
def hexToNat (ds : List Char) : Nat :=
  ds.foldl (fun n c => 16 * n + hexDigitVal c) 0

/-- The digit-consuming part of JS `parseInt(s)` (radix unspecified):
after sign handling, a `0x`/`0X` prefix switches to hexadecimal, otherwise
leading decimal digits are read; no digits at all gives `NaN` (`none`). -/
def jsParseIntBody (cs : List Char) (sign : Int) : Option Int :=
  match cs with
  | '0' :: c :: rest =>
    if c = 'x' || c = 'X' then
      let ds := rest.takeWhile isHexDigit
      if ds.isEmpty then none else some (sign * hexToNat ds)
    else
      some (sign * decToNat (decDigits ('0' :: c :: rest)))
  | _ =>
    let ds := decDigits cs
    if ds.isEmpty then none else some (sign * decToNat ds)

/-- Model of JS `parseInt(s)` with no radix argument: skip leading
whitespace, read an optional sign, then digits (`jsParseIntBody`); `none`
stands for `NaN`. Total: it never raises an error. -/
def jsParseInt (s : String) : Option Int :=
  let cs := s.toList.dropWhile Char.isWhitespace
  match cs with
  | '-' :: rest => jsParseIntBody rest (-1)
  | '+' :: rest => jsParseIntBody rest 1
  | _ => jsParseIntBody cs 1

/-- Models `parseInt(s) || 0`: `NaN` is falsy and becomes `0`; a parsed `0` is
also falsy and `0 || 0 = 0`, the same value. -/
def parseIntOr0 (s : String) : Int := (jsParseInt s).getD 0

/-- Recipe snapshot embedded in a menu (`Menu.tsx` `interface Recipe`);
fields the timing aggregation never touches default to `""`/`0`/`[]`. -/
structure MenuRecipe where
  id : String := ""
  name : String := ""
  description : String := ""
  cuisine : String := ""
  category : String := ""
  image : String := ""
  prepTime : String := ""
  cookTime : String := ""
  servings : Int := 0
  ingredients : List String := []
  instructions : List String := []
  mealType : String := ""
deriving Repr, DecidableEq

/-- Embeds `Menu.tsx` `interface MenuItem`. -/
structure MenuItem where
  id : String := ""
  name : String := ""
  description : String := ""
  mealType : String := ""
  recipes : List MenuRecipe := []
deriving Repr, DecidableEq

/-- Embeds `MenuDetailsModal` `totalPrepTime`:
`menu.recipes.reduce((total, recipe) => total + (parseInt(recipe.prepTime) || 0), 0)`. -/
def totalPrepTime (menu : MenuItem) : Int :=
  menu.recipes.foldl (fun total recipe => total + parseIntOr0 recipe.prepTime) 0

/-- Embeds `MenuDetailsModal` `totalCookTime`, same shape over `cookTime`. -/
def totalCookTime (menu : MenuItem) : Int :=
  menu.recipes.foldl (fun total recipe => total + parseIntOr0 recipe.cookTime) 0

/-! ### Shopping list (`ShoppingList.tsx`) -/

/-- A JS number, idealized: finite doubles are represented by exact
rationals (no rounding is modelled), plus the IEEE-754 non-finite values.
Negative zero is not distinguished from zero. -/
inductive JSNum where
  | num (q : ℚ)
  | posInf
  | negInf
  | nan
deriving Repr, DecidableEq

/-- A `JSNum` is finite iff it is an actual number. -/
def JSNum.isFinite : JSNum → Bool
  | .num _ => true
  | _ => false

/-- JS `/` on numbers. Finite by finite non-zero is exact division;
division by zero follows IEEE-754 (`p/0 = ±∞` by the sign of `p`,
`0/0 = NaN`) and never throws; infinity and `NaN` cases as in IEEE-754. -/
def jsDiv : JSNum → JSNum → JSNum
  | .num p, .num q =>
    if q = 0 then
      if p > 0 then .posInf else if p < 0 then .negInf else .nan
    else .num (p / q)
  | .num _, .posInf => .num 0
  | .num _, .negInf => .num 0
  | .posInf, .num q => if q < 0 then .negInf else .posInf
  | .negInf, .num q => if q < 0 then .posInf else .negInf
  | .posInf, .posInf => .nan
  | .posInf, .negInf => .nan
  | .negInf, .posInf => .nan
  | .negInf, .negInf => .nan
  | .nan, _ => .nan
  | _, .nan => .nan

/-- Embeds `ShoppingList.tsx` `interface ProductVariant`. -/
structure ProductVariant where
  id : String := ""
  productName : String := ""
  price : JSNum := .num 0
  quantity : JSNum := .num 0
  unit : String := ""
  pricePerUnit : JSNum := .num 0
  store : String := ""
  storeUrl : String := ""
deriving Repr, DecidableEq

/-- The `currentProduct` form state of the add/edit modals: a
`ProductVariant` before `id` and `pricePerUnit` exist. -/
structure ProductInput where
  productName : String := ""
  price : JSNum := .num 0
  quantity : JSNum := .num 0
  unit : String := ""
  store : String := ""
  storeUrl : String := ""
deriving Repr, DecidableEq

/-- Embeds `AddItemModal.handleAddProduct`:
`const pricePerUnit = currentProduct.price / currentProduct.quantity;`
`setProducts([...products, { ...currentProduct, pricePerUnit }])`.
(The `id` field is attached later, at submit; it is `""` here.) -/
def addModalHandleAddProduct (products : List ProductVariant)
    (currentProduct : ProductInput) : List ProductVariant :=
  let pricePerUnit := jsDiv currentProduct.price currentProduct.quantity
  products ++ [{ id := "", productName := currentProduct.productName,
                 price := currentProduct.price, quantity := currentProduct.quantity,
                 unit := currentProduct.unit, pricePerUnit := pricePerUnit,
                 store := currentProduct.store, storeUrl := currentProduct.storeUrl }]

/-- Embeds `ShoppingList.tsx` `interface ShoppingItem`. -/
structure ShoppingItem where
  id : String := ""
  name : String := ""
  category : String := ""
  completed : Bool := false
  products : List ProductVariant := []
deriving Repr, DecidableEq

/-- Embeds `EditItemModal.handleAddProduct`: same `pricePerUnit` computation,
appending a full `ProductVariant` (with a fresh `temp-…` id, passed in
here as `newId`) to the products of the edited item. -/
def editModalHandleAddProduct (editedItem : ShoppingItem)
    (currentProduct : ProductInput) (newId : String) : ShoppingItem :=
  let pricePerUnit := jsDiv currentProduct.price currentProduct.quantity
  { editedItem with
    products := editedItem.products ++
      [{ id := newId, productName := currentProduct.productName,
         price := currentProduct.price, quantity := currentProduct.quantity,
         unit := currentProduct.unit, pricePerUnit := pricePerUnit,
         store := currentProduct.store, storeUrl := currentProduct.storeUrl }] }

/-- Order used by `.sort((a, b) => a.name.localeCompare(b.name))`:
`localeCompare` is modelled by the lexicographic order on the
character lists of the names. -/
def byNameLe (a b : ShoppingItem) : Prop := a.name.toList ≤ b.name.toList

instance : DecidableRel byNameLe :=
  fun a b => inferInstanceAs (Decidable (a.name.toList ≤ b.name.toList))

instance : IsTotal ShoppingItem byNameLe := ⟨fun a b => le_total a.name.toList b.name.toList⟩

instance : IsTrans ShoppingItem byNameLe := ⟨fun _ _ _ hab hbc => le_trans hab hbc⟩

/-- Models `items.sort((a, b) => a.name.localeCompare(b.name))` by a
stable sort under `byNameLe`. -/
def sortItems (items : List ShoppingItem) : List ShoppingItem :=
  items.insertionSort byNameLe

/-- Embeds `ShoppingList.tsx` `fetchItems`: the fetched items are sorted
alphabetically before being stored in view state. -/
def fetchItemsModel (stored : List ShoppingItem) : List ShoppingItem :=
  sortItems stored

/-- Embeds `ShoppingList.tsx` `handleAddItem`: `[...items, newItemWithId].sort(…)`. -/
def handleAddItem (items : List ShoppingItem) (newItem : ShoppingItem) : List ShoppingItem :=
  sortItems (items ++ [newItem])

/-- Embeds `ShoppingList.tsx` `handleSaveEdit`:
`items.map(item => item.id === editedItem.id ? editedItem : item).sort(…)`. -/
def handleSaveEdit (items : List ShoppingItem) (editedItem : ShoppingItem) : List ShoppingItem :=
  sortItems (items.map fun item => if item.id = editedItem.id then editedItem else item)

/-- Embeds `ShoppingList.tsx` `toggleComplete`: the toggled copy
`{ ...item, completed: !item.completed }` replaces the item by id and the
list is re-sorted. -/
def toggleComplete (items : List ShoppingItem) (item : ShoppingItem) : List ShoppingItem :=
  let updatedItem := { item with completed := !item.completed }
  sortItems (items.map fun i => if i.id = item.id then updatedItem else i)

/-- Embeds `ShoppingList.tsx` `handleDeleteItem`:
`items.filter(item => item.id !== itemId).sort(…)`. -/
def handleDeleteItem (items : List ShoppingItem) (itemId : String) : List ShoppingItem :=
  sortItems (items.filter fun item => item.id ≠ itemId)

/-- Embeds `ShoppingList.tsx` `handleDeleteSelected`:
`items.filter(item => !selectedItems.includes(item.id)).sort(…)`. -/
def handleDeleteSelected (items : List ShoppingItem) (selectedItems : List String) : List ShoppingItem :=
  sortItems (items.filter fun item => !(selectedItems.contains item.id))

/-! ### Recipes workflows (`Recipes.tsx`) -/

/-- Selection step of `handleAddMissingIngredients`:
`recipe.ingredients.filter(ingredient => !checkIngredientInStock(ingredient.name))`. -/
def missingIngredients (recipe : Recipe) (inventory : List InventoryItem) : List Ingredient :=
  recipe.ingredients.filter fun ingredient =>
    !(checkIngredientInStock ingredient.name inventory)

/-- Embeds `Recipes.tsx` `handleAddMissingIngredients`: one
document with name, category "Ingredients", completed false, empty products
is appended to the `items` sub-collection of the current list per missing
ingredient, in recipe order. -/
def handleAddMissingIngredients (listItems : List ShoppingItem) (recipe : Recipe)
    (inventory : List InventoryItem) : List ShoppingItem :=
  listItems ++ (missingIngredients recipe inventory).map fun ingredient =>
    { id := "", name := ingredient.name, category := "Ingredients",
      completed := false, products := [] }

/-- Embeds the `Recipes.tsx` `filteredRecipes` search predicate: the lowered search
term must occur in the lowered name, description, cuisine or some
ingredient name. -/
def matchesSearch (recipe : Recipe) (searchTerm : String) : Bool :=
  jsIncludes (jsToLower recipe.name) (jsToLower searchTerm) ||
  jsIncludes (jsToLower recipe.description) (jsToLower searchTerm) ||
  jsIncludes (jsToLower recipe.cuisine) (jsToLower searchTerm) ||
  recipe.ingredients.any fun ingredient =>
    jsIncludes (jsToLower ingredient.name) (jsToLower searchTerm)

/-- Embeds `Recipes.tsx` `filteredRecipes`:
`matchesSearch && matchesCategory && matchesStock` with
`matchesCategory = !categoryFilter || recipe.category === categoryFilter`
and `matchesStock = !showOnlyInStock || hasAllIngredientsInStock(recipe)`. -/
def filteredRecipes (recipes : List Recipe) (searchTerm categoryFilter : String)
    (showOnlyInStock : Bool) (inventory : List InventoryItem) : List Recipe :=
  recipes.filter fun recipe =>
    let mSearch := matchesSearch recipe searchTerm
    let mCategory := !(jsTruthyStr categoryFilter) || recipe.category == categoryFilter
    let mStock := !showOnlyInStock || hasAllIngredientsInStock recipe inventory
    mSearch && mCategory && mStock

/-! ### Calendar page (unnamed source file, `Calendar`) -/

/-- The stored fields of a menu document (`menuSnapshot.data()`), shaped
as the `MenuItem` of the calendar page minus the id. -/
structure MenuFields where
  name : String := ""
  description : String := ""
  recipes : List MenuRecipe := []
deriving Repr, DecidableEq

/-- The menu value attached to a calendar entry:
`{ id: menuSnapshot.id, ...menuSnapshot.data() }`. When the document does
not exist, `data()` is `undefined` and the spread contributes nothing, so
`data` is `none`. -/
structure MenuSnapshot where
  id : String
  data : Option MenuFields
deriving Repr, DecidableEq

/-- A stored `calendar` document: `{date, menuId}` plus its store id. -/
structure CalendarRecord where
  id : String := ""
  date : String
  menuId : String
deriving Repr, DecidableEq

/-- In-memory calendar entry: the stored fields plus the attached menu. -/
structure CalendarEntry where
  id : String
  date : String
  menuId : String
  menu : MenuSnapshot
deriving Repr, DecidableEq

/-- Result of `getDoc` on a menu id: `Except.error` models a thrown fetch
error, `Except.ok none` a snapshot with `exists() = false` (so `data()`
is `undefined`), `Except.ok (some fields)` an existing document. -/
abbrev MenuFetch : Type := Except Unit (Option MenuFields)

/-- Calendar page `fetchCalendarEntries`: for each stored record the menu
is fetched; a thrown error or a non-existing menu yields `null`, and the
final `.filter(entry => entry !== null)` drops those records. Both
failure branches are caught, so the whole load never raises. -/
def fetchCalendarEntries (records : List CalendarRecord)
    (getMenu : String → MenuFetch) : List CalendarEntry :=
  records.filterMap fun record =>
    match getMenu record.menuId with
    | .error _ => none
    | .ok none => none
    | .ok (some fields) =>
      some { id := record.id, date := record.date, menuId := record.menuId,
             menu := { id := record.menuId, data := some fields } }

/-- View state of the calendar page touched by `handleSaveMenu`: the
remote `calendar` collection and the in-memory `calendarEntries`. -/
structure CalendarState where
  remoteCalendar : List CalendarRecord := []
  calendarEntries : List CalendarEntry := []
deriving Repr, DecidableEq

/-- Calendar page `handleSaveMenu` (with the `addDoc` itself succeeding
and assigning `newId`): the `{date, menuId}` record is written to the
remote `calendar` collection FIRST; only then is the menu fetched. A
thrown fetch is swallowed by the surrounding `catch` (remote record kept,
no in-memory entry); `exists()` is never checked here, so a fetch of a
non-existing id still builds the in-memory entry, with an empty menu
snapshot. -/
def handleSaveMenu (st : CalendarState) (date menuId newId : String)
    (getMenu : MenuFetch) : CalendarState :=
  let entry : CalendarRecord := { id := newId, date := date, menuId := menuId }
  let remote := st.remoteCalendar ++ [entry]
  match getMenu with
  | .error _ => { st with remoteCalendar := remote }
  | .ok menuData =>
    { remoteCalendar := remote,
      calendarEntries := st.calendarEntries ++
        [{ id := newId, date := date, menuId := menuId,
           menu := { id := menuId, data := menuData } }] }

/-! ### Helper lemmas -/

lemma listIncludes_iff {α : Type} [DecidableEq α] (hay needle : List α) :
    listIncludes hay needle = true ↔ needle <:+: hay := by
  simp only [listIncludes, List.any_eq_true, List.mem_tails, List.isPrefixOf_iff_prefix]
  constructor
  · rintro ⟨s, hs, hp⟩
    exact List.infix_iff_prefix_suffix.2 ⟨s, hp, hs⟩
  · intro h
    obtain ⟨s, hp, hs⟩ := List.infix_iff_prefix_suffix.1 h
    exact ⟨s, hs, hp⟩

lemma jsIncludes_iff (hay needle : String) :
    jsIncludes hay needle = true ↔ needle.toList <:+: hay.toList :=
  listIncludes_iff hay.toList needle.toList

lemma jsTruthyStr_eq_true {s : String} : jsTruthyStr s = true ↔ s ≠ "" := by
  simp [jsTruthyStr]

lemma checkIngredientInStock_iff_aux (ingredient : String) (inventory : List InventoryItem) :
    checkIngredientInStock ingredient inventory = true ↔
      ingredient ≠ "" ∧ ∃ item ∈ inventory,
        (jsToLower ingredient).toList <:+: (jsToLower item.name).toList := by
  by_cases h : ingredient = ""
  · simp [checkIngredientInStock, jsTruthyStr, h]
  · simp [checkIngredientInStock, jsTruthyStr, h, List.any_eq_true, jsIncludes_iff]

lemma checkIngredientInStock_ne_empty {ingredient : String} {inventory : List InventoryItem}
    (h : checkIngredientInStock ingredient inventory = true) : jsTruthyStr ingredient = true := by
  by_contra hne
  simp only [checkIngredientInStock, Bool.not_eq_true] at h hne
  rw [hne] at h
  simp at h

/-! ### Claim C1 -/

/-- C1 counterexample: the claim says a recipe whose ingredient list is
empty is reported NOT fully in stock, but `hasAllIngredientsInStock` on a
recipe with `ingredients = []` returns `true`: in JS an empty array is
truthy, so the `if (!recipe.ingredients)` guard does not fire and
`[].every(…)` is vacuously true. -/
theorem hasAllIngredientsInStock_empty_counterexample :
    emptyIngredientsRecipe.ingredients = [] ∧
      hasAllIngredientsInStock emptyIngredientsRecipe [] = true := by
  constructor
  · rfl
  · decide

/-- C1 (amended): `hasAllIngredientsInStock` returns `true` exactly when
every ingredient of the recipe satisfies the stock check — with no
non-emptiness requirement, so an empty ingredient list yields `true`
(vacuous truth is not inverted; only an absent/undefined ingredients
array, impossible for the declared interface, would yield `false`). -/
theorem hasAllIngredientsInStock_iff (recipe : Recipe) (inventory : List InventoryItem) :
    hasAllIngredientsInStock recipe inventory = true ↔
      ∀ ingredient ∈ recipe.ingredients,
        checkIngredientInStock ingredient.name inventory = true := by
  simp only [hasAllIngredientsInStock, jsTruthyArray, Bool.not_true, Bool.false_eq_true,
    if_false, List.all_eq_true, Bool.and_eq_true]
  constructor
  · intro h ingredient hmem
    exact (h ingredient hmem).2
  · intro h ingredient hmem
    exact ⟨checkIngredientInStock_ne_empty (h ingredient hmem), h ingredient hmem⟩

/-- Witness for `hasAllIngredientsInStock_iff` at a concrete recipe and
inventory. -/
theorem hasAllIngredientsInStock_iff_witness :
    hasAllIngredientsInStock
      { name := "Bread", ingredients := [{ name := "Flour" }] }
      [{ id := "i1", name := "Wheat Flour" }] = true :=
  (hasAllIngredientsInStock_iff
    { name := "Bread", ingredients := [{ name := "Flour" }] }
    [{ id := "i1", name := "Wheat Flour" }]).2 (by decide)

/-! ### Claim C4 -/

/-- C4: `checkIngredientInStock` returns `true` iff the (non-empty)
ingredient name occurs, case-insensitively, as a substring of some
name of some inventory item; an empty ingredient name returns `false`. -/
theorem checkIngredientInStock_iff (ingredient : String) (inventory : List InventoryItem) :
    checkIngredientInStock ingredient inventory = true ↔
      ingredient ≠ "" ∧ ∃ item ∈ inventory,
        (jsToLower ingredient).toList <:+: (jsToLower item.name).toList :=
  checkIngredientInStock_iff_aux ingredient inventory

/-! ### Claim C3 -/

lemma fdiv_add_mul_sub (t : Int) (k : Int) :
    (t + k * msPerDay - t).fdiv msPerDay = k := by
  have h : t + k * msPerDay - t = k * msPerDay := by ring
  rw [h, Int.mul_fdiv_cancel]
  norm_num [msPerDay]

/-- C3: the derived expiration status. No date → neither flag; `expired`
exactly when the date is strictly before the current instant;
`expiringSoon` exactly when the floor-truncated whole-day difference is
between 0 and 7 inclusive. Boundary cases: today is `expiringSoon` and
not `expired`; today+7 days is `expiringSoon`; today+8 days is neither;
yesterday is `expired` and not `expiringSoon`. -/
theorem expirationStatus_spec (t d : Int) :
    (isExpired none t = false ∧ isExpiringSoon none t = false)
    ∧ (isExpired (some d) t = true ↔ d < t)
    ∧ (isExpiringSoon (some d) t = true ↔
        0 ≤ (d - t).fdiv msPerDay ∧ (d - t).fdiv msPerDay ≤ 7)
    ∧ (isExpiringSoon (some t) t = true ∧ isExpired (some t) t = false)
    ∧ isExpiringSoon (some (t + 7 * msPerDay)) t = true
    ∧ (isExpiringSoon (some (t + 8 * msPerDay)) t = false
        ∧ isExpired (some (t + 8 * msPerDay)) t = false)
    ∧ (isExpired (some (t - msPerDay)) t = true
        ∧ isExpiringSoon (some (t - msPerDay)) t = false) := by
  have hiff : ∀ e : Int, isExpiringSoon (some e) t = true ↔
      0 ≤ (e - t).fdiv msPerDay ∧ (e - t).fdiv msPerDay ≤ 7 := by
    intro e
    simp [isExpiringSoon, Bool.and_eq_true, decide_eq_true_eq, ge_iff_le, and_comm]
  have hexp : ∀ e : Int, isExpired (some e) t = true ↔ e < t := by
    intro e
    simp [isExpired, decide_eq_true_eq]
  refine ⟨⟨rfl, rfl⟩, hexp d, hiff d, ⟨?_, ?_⟩, ?_, ⟨?_, ?_⟩, ?_, ?_⟩
  · rw [hiff t]
    simp [Int.zero_fdiv]
  · simp [isExpired]
  · rw [hiff (t + 7 * msPerDay), fdiv_add_mul_sub t 7]
    norm_num
  · rw [Bool.eq_false_iff, ne_eq, hiff (t + 8 * msPerDay), fdiv_add_mul_sub t 8]
    norm_num
  · rw [Bool.eq_false_iff, ne_eq, hexp (t + 8 * msPerDay)]
    simp [msPerDay]
  · rw [hexp (t - msPerDay)]
    simp [msPerDay]
  · rw [Bool.eq_false_iff, ne_eq, hiff (t - msPerDay)]
    have h : t - msPerDay - t = (-1) * msPerDay := by ring
    rw [h, Int.mul_fdiv_cancel]
    · norm_num
    · norm_num [msPerDay]

/-! ### Claim C6 -/

lemma foldl_add_eq_sum {α : Type} (f : α → Int) (l : List α) (n : Int) :
    l.foldl (fun total x => total + f x) n = n + (l.map f).sum := by
  induction l generalizing n with
  | nil => simp
  | cons x xs ih => simp [ih, add_assoc]

/-- C6: the aggregate timing totals are the sums, over the embedded
recipes of the menu, of the integer `parseInt` reads from the front of each free-text
duration string, with a string no integer can be parsed from (in
particular one whose first character is neither whitespace, a sign, nor a
digit) contributing 0; `parseIntOr0` is total, so no input raises an
error. Concretely: "30 mins" and "15 mins" give a total of 45, and
"quick" contributes 0. -/
theorem aggregateTime_spec (menu : MenuItem) :
    (totalPrepTime menu = (menu.recipes.map fun r => parseIntOr0 r.prepTime).sum
      ∧ totalCookTime menu = (menu.recipes.map fun r => parseIntOr0 r.cookTime).sum)
    ∧ (∀ s : String, jsParseInt s = none → parseIntOr0 s = 0)
    ∧ (∀ (s : String) (c : Char) (cs : List Char),
        s.toList = c :: cs → c.isWhitespace = false → c.isDigit = false →
        c ≠ '-' → c ≠ '+' → parseIntOr0 s = 0)
    ∧ parseIntOr0 "30 mins" = 30 ∧ parseIntOr0 "15 mins" = 15
    ∧ parseIntOr0 "quick" = 0
    ∧ totalPrepTime { recipes := [{ prepTime := "30 mins" }, { prepTime := "15 mins" }] } = 45
    ∧ totalPrepTime { recipes := [{ prepTime := "30 mins" }, { prepTime := "quick" }] } = 30 := by
  refine ⟨⟨?_, ?_⟩, ?_, ?_, by decide, by decide, by decide, by decide, by decide⟩
  · simpa using foldl_add_eq_sum (fun r : MenuRecipe => parseIntOr0 r.prepTime) menu.recipes 0
  · simpa using foldl_add_eq_sum (fun r : MenuRecipe => parseIntOr0 r.cookTime) menu.recipes 0
  · intro s h
    simp [parseIntOr0, h]
  · intro s c cs hs hw hd hminus hplus
    have hdrop : s.toList.dropWhile Char.isWhitespace = c :: cs := by
      rw [hs, List.dropWhile_cons, hw]
      simp
    have hzero : c ≠ '0' := by
      intro hc
      rw [hc] at hd
      simp [Char.isDigit] at hd
    have hbody : ∀ sign : Int, jsParseIntBody (c :: cs) sign = none := by
      intro sign
      have htake : (c :: cs).takeWhile Char.isDigit = [] := by
        rw [List.takeWhile_cons, hd]
        simp
      match hcs : cs with
      | [] =>
        simp [jsParseIntBody, decDigits, htake]
      | c' :: rest =>
        have : jsParseIntBody (c :: c' :: rest) sign =
            (if (decDigits (c :: c' :: rest)).isEmpty then none
             else some (sign * decToNat (decDigits (c :: c' :: rest)))) := by
          rw [jsParseIntBody.eq_def]
          split
          · rename_i heq
            injection heq with h1 _
            exact (hzero h1).elim
          · rfl
        rw [this]
        simp [decDigits, htake]
    have hparse : jsParseInt s = none := by
      rw [jsParseInt]
      simp only [hdrop]
      split
      · rename_i heq
        injection heq with h1 _
        exact (hminus h1).elim
      · rename_i heq
        injection heq with h1 _
        exact (hplus h1).elim
      · exact hbody 1
    simp [parseIntOr0, hparse]

/-- Witness for `aggregateTime_spec` at a concrete menu, discharging the
hypotheses of its general conjuncts at "quick". -/
theorem aggregateTime_spec_witness :
    parseIntOr0 "quick" = 0 ∧
      totalPrepTime { recipes := [{ prepTime := "30 mins" }, { prepTime := "15 mins" }] } = 45 :=
  ⟨(aggregateTime_spec { recipes := [] }).2.2.1 "quick" 'q' ['u', 'i', 'c', 'k']
      (by decide) (by decide) (by decide) (by decide) (by decide),
    (aggregateTime_spec { recipes := [] }).2.2.2.2.2.2.1⟩

/-! ### Claim C7 -/

/-- C7: at both add-product sites the new variant field `pricePerUnit` is
`price / quantity` (so `10 / 4 = 2.5`); division by a zero quantity does
not throw — `jsDiv` is total — and yields a non-finite value (infinity or
NaN) that is stored unchanged in the appended variant. -/
theorem pricePerUnit_spec (products : List ProductVariant) (cp : ProductInput)
    (item : ShoppingItem) (newId : String) :
    (∃ v : ProductVariant, addModalHandleAddProduct products cp = products ++ [v]
      ∧ v.pricePerUnit = jsDiv cp.price cp.quantity
      ∧ v.price = cp.price ∧ v.quantity = cp.quantity ∧ v.productName = cp.productName)
    ∧ (∃ v : ProductVariant,
        (editModalHandleAddProduct item cp newId).products = item.products ++ [v]
        ∧ v.pricePerUnit = jsDiv cp.price cp.quantity
        ∧ v.price = cp.price ∧ v.quantity = cp.quantity ∧ v.id = newId)
    ∧ jsDiv (.num 10) (.num 4) = .num (5 / 2)
    ∧ (∀ p : ℚ, (jsDiv (.num p) (.num 0)).isFinite = false) := by
  refine ⟨⟨_, rfl, rfl, rfl, rfl, rfl⟩, ⟨_, rfl, rfl, rfl, rfl, rfl⟩, ?_, ?_⟩
  · norm_num [jsDiv]
  · intro p
    rcases lt_trichotomy p 0 with h | h | h
    · have h1 : ¬(p > 0) := by linarith
      simp [jsDiv, h, h1, JSNum.isFinite]
    · subst h
      simp [jsDiv, JSNum.isFinite]
    · simp [jsDiv, h, JSNum.isFinite]

/-! ### Claim C8 -/

/-- C8: after a load and after every mutation the in-memory items list is
sorted by name, and the concrete scenario: toggling "Bananas" in
{"Bananas", "Apples"} yields ["Apples", "Bananas"] with Apples still
pending and Bananas completed. -/
theorem shoppingItems_sorted_spec (stored items : List ShoppingItem)
    (newItem editedItem item : ShoppingItem) (itemId : String) (selectedIds : List String) :
    List.Sorted byNameLe (fetchItemsModel stored)
    ∧ List.Sorted byNameLe (handleAddItem items newItem)
    ∧ List.Sorted byNameLe (handleSaveEdit items editedItem)
    ∧ List.Sorted byNameLe (toggleComplete items item)
    ∧ List.Sorted byNameLe (handleDeleteItem items itemId)
    ∧ List.Sorted byNameLe (handleDeleteSelected items selectedIds)
    ∧ toggleComplete
        [{ id := "b", name := "Bananas" }, { id := "a", name := "Apples" }]
        { id := "b", name := "Bananas" } =
      [{ id := "a", name := "Apples" },
       { id := "b", name := "Bananas", completed := true }] :=
  ⟨List.sorted_insertionSort byNameLe stored,
   List.sorted_insertionSort byNameLe _,
   List.sorted_insertionSort byNameLe _,
   List.sorted_insertionSort byNameLe _,
   List.sorted_insertionSort byNameLe _,
   List.sorted_insertionSort byNameLe _,
   by decide⟩

/-! ### Claim C5 -/

/-- C5: the add-missing-ingredients workflow appends to the active list
items exactly one shopping item per recipe ingredient failing the stock
check, in recipe order, each named after the ingredient with category
"Ingredients", not completed, and no product variants. Concretely, for
ingredients [Flour (in stock), Saffron (not in stock)] against an empty
target list exactly one item named "Saffron" is added. -/
theorem addMissingIngredients_spec (listItems : List ShoppingItem) (recipe : Recipe)
    (inventory : List InventoryItem) :
    (∃ newItems : List ShoppingItem,
      handleAddMissingIngredients listItems recipe inventory = listItems ++ newItems
      ∧ newItems.map (fun it => it.name)
          = (missingIngredients recipe inventory).map (fun ing => ing.name)
      ∧ (∀ it ∈ newItems,
          it.category = "Ingredients" ∧ it.completed = false ∧ it.products = []))
    ∧ missingIngredients recipe inventory
        = recipe.ingredients.filter
            (fun ing => checkIngredientInStock ing.name inventory = false)
    ∧ handleAddMissingIngredients []
        { name := "Paella",
          ingredients := [{ name := "Flour" }, { name := "Saffron" }] }
        [{ id := "i1", name := "Wheat Flour" }]
        = [{ id := "", name := "Saffron", category := "Ingredients",
             completed := false, products := [] }] := by
  have hmain : handleAddMissingIngredients listItems recipe inventory
      = listItems ++ (missingIngredients recipe inventory).map
          (fun ingredient =>
            ({ id := "", name := ingredient.name, category := "Ingredients",
               completed := false, products := [] } : ShoppingItem)) := rfl
  refine ⟨⟨_, hmain, by simp, ?_⟩, ?_, by decide⟩
  · intro it hit
    simp only [List.mem_map] at hit
    obtain ⟨ing, _, rfl⟩ := hit
    exact ⟨rfl, rfl, rfl⟩
  · simp only [missingIngredients]
    congr 1
    funext ing
    cases h : checkIngredientInStock ing.name inventory <;> simp [h]

/-! ### Claim C9 -/

lemma categoryMatch_iff (cf cat : String) :
    (!(jsTruthyStr cf) || (cat == cf)) = true ↔ cf = "" ∨ cat = cf := by
  by_cases h : cf = "" <;> simp [jsTruthyStr, h]

lemma boolGuard_iff (b h : Bool) : (!b || h) = true ↔ b = false ∨ h = true := by
  cases b <;> simp

lemma matchesSearch_iff (recipe : Recipe) (searchTerm : String) :
    matchesSearch recipe searchTerm = true ↔
      (jsToLower searchTerm).toList <:+: (jsToLower recipe.name).toList
      ∨ (jsToLower searchTerm).toList <:+: (jsToLower recipe.description).toList
      ∨ (jsToLower searchTerm).toList <:+: (jsToLower recipe.cuisine).toList
      ∨ ∃ ingredient ∈ recipe.ingredients,
          (jsToLower searchTerm).toList <:+: (jsToLower ingredient.name).toList := by
  simp [matchesSearch, Bool.or_eq_true, jsIncludes_iff, List.any_eq_true, or_assoc]

/-- C9: a recipe passes the Recipes-view filter iff the search term
occurs (case-insensitively) in its name, description, cuisine or some
ingredient name, AND the category filter is empty or equals the recipe
category exactly, AND the stock toggle is off or the recipe has all
ingredients in stock — all three predicates conjoined. -/
theorem filteredRecipes_mem_iff (recipes : List Recipe) (searchTerm categoryFilter : String)
    (showOnlyInStock : Bool) (inventory : List InventoryItem) (recipe : Recipe) :
    recipe ∈ filteredRecipes recipes searchTerm categoryFilter showOnlyInStock inventory ↔
      recipe ∈ recipes
      ∧ ((jsToLower searchTerm).toList <:+: (jsToLower recipe.name).toList
        ∨ (jsToLower searchTerm).toList <:+: (jsToLower recipe.description).toList
        ∨ (jsToLower searchTerm).toList <:+: (jsToLower recipe.cuisine).toList
        ∨ ∃ ingredient ∈ recipe.ingredients,
            (jsToLower searchTerm).toList <:+: (jsToLower ingredient.name).toList)
      ∧ (categoryFilter = "" ∨ recipe.category = categoryFilter)
      ∧ (showOnlyInStock = false ∨ hasAllIngredientsInStock recipe inventory = true) := by
  rw [filteredRecipes, List.mem_filter]
  refine and_congr Iff.rfl ?_
  show (matchesSearch recipe searchTerm &&
      ((!(jsTruthyStr categoryFilter)) || (recipe.category == categoryFilter)) &&
      ((!showOnlyInStock) || hasAllIngredientsInStock recipe inventory)) = true ↔ _
  rw [Bool.and_eq_true, Bool.and_eq_true, matchesSearch_iff, categoryMatch_iff, boolGuard_iff]
  tauto

/-! ### Claim C2 -/

/-- C2 counterexample: scheduling a menu writes the remote calendar
record BEFORE fetching the menu, so with a failing menu fetch
(`Except.error ()`) the remote record is still created — contradicting
"neither a remote calendar record nor an in-memory calendar entry is
created" — and with an id that names no menu (`Except.ok none`, since
`exists()` is never checked) an in-memory entry with an empty menu
snapshot is created as well. -/
theorem handleSaveMenu_counterexample :
    ((handleSaveMenu {} "2026-10-12" "m1" "c1" (Except.error ())).remoteCalendar
        = [{ id := "c1", date := "2026-10-12", menuId := "m1" }]
      ∧ (handleSaveMenu {} "2026-10-12" "m1" "c1" (Except.error ())).calendarEntries = [])
    ∧ (handleSaveMenu {} "2026-10-12" "m1" "c1" (Except.ok none)).calendarEntries
        = [{ id := "c1", date := "2026-10-12", menuId := "m1",
             menu := { id := "m1", data := none } }] := by
  refine ⟨⟨rfl, rfl⟩, rfl⟩

/-- C2 (amended): `handleSaveMenu` always appends the `{date, menuId}`
record to the remote calendar collection (the write precedes the fetch);
when the fetch throws, no in-memory entry is added (the error is
swallowed); when the fetch returns — even for a non-existing menu id —
an in-memory entry is appended carrying the fetched snapshot (empty when
the id names no menu). -/
theorem handleSaveMenu_spec (st : CalendarState) (date menuId newId : String)
    (m : Option MenuFields) (e : Unit) :
    ((handleSaveMenu st date menuId newId (Except.ok m)).remoteCalendar
        = st.remoteCalendar ++ [{ id := newId, date := date, menuId := menuId }]
      ∧ (handleSaveMenu st date menuId newId (Except.error e)).remoteCalendar
        = st.remoteCalendar ++ [{ id := newId, date := date, menuId := menuId }])
    ∧ (handleSaveMenu st date menuId newId (Except.error e)).calendarEntries
        = st.calendarEntries
    ∧ (handleSaveMenu st date menuId newId (Except.ok m)).calendarEntries
        = st.calendarEntries ++
            [{ id := newId, date := date, menuId := menuId,
               menu := { id := menuId, data := m } }] :=
  ⟨⟨rfl, rfl⟩, rfl, rfl⟩

/-! ### Claim C10 -/

/-- C10: an entry is in the loaded calendar list iff it arises from a
stored record whose menu fetch succeeded on an existing menu, with that
menu snapshot attached; records whose menu is missing or whose fetch
throws are silently dropped (both branches return `null`, filtered out),
and no error escapes (`fetchCalendarEntries` is total). -/
theorem fetchCalendarEntries_mem_iff (records : List CalendarRecord)
    (getMenu : String → MenuFetch) (entry : CalendarEntry) :
    entry ∈ fetchCalendarEntries records getMenu ↔
      ∃ record ∈ records, ∃ fields : MenuFields,
        getMenu record.menuId = Except.ok (some fields)
        ∧ entry = { id := record.id, date := record.date, menuId := record.menuId,
                    menu := { id := record.menuId, data := some fields } } := by
  rw [fetchCalendarEntries, List.mem_filterMap]
  constructor
  · rintro ⟨record, hmem, hsome⟩
    refine ⟨record, hmem, ?_⟩
    cases hg : getMenu record.menuId with
    | error e =>
      rw [hg] at hsome
      simp at hsome
    | ok o =>
      cases o with
      | none =>
        rw [hg] at hsome
        simp at hsome
      | some fields =>
        rw [hg] at hsome
        simp only [Option.some.injEq] at hsome
        exact ⟨fields, rfl, hsome.symm⟩
  · rintro ⟨record, hmem, fields, hg, rfl⟩
    refine ⟨record, hmem, ?_⟩
    rw [hg]

end MealPlanner
